import Mathlib

/-!
Verification of the debug-information engine of `probe-rs`
(`src/probe-rs/src/debug/mod.rs`), a shallow embedding in Lean 4.

The embedding models the data types and control flow of the source file:
  * `Registers` and its architecture-specific role accessors,
  * the `DebugInfo::unwind` loop (PART 0 .. PART 3 of the source),
  * `DebugInfo::get_source_location` / `DebugInfo::function_name`,
  * the candidate-selection logic of `DebugInfo::get_breakpoint_location`,
  * the `RequiresMemory` arm of `UnitInfo::expr_to_piece`,
  * the `DW_TAG_base_type` member-index arm of `UnitInfo::extract_type`.

External collaborators (gimli DWARF parsing, the probe transport, the
target memory `Core`) are represented as environment data: functions from
addresses to parsed unwind rules, frame descriptors, memory contents and
resolved debug-info entries.  Machine integers are `Nat` with explicit
`% 2^32` / `% 2^64` at the points where the Rust code truncates (`as u32`)
or where release-mode wrapping arithmetic applies; `Int` is used where the
source mixes signed offsets (`i64`) with unsigned values.  Rust panics
(`unimplemented!`, `todo!`) are modelled as a dedicated `panicked` outcome,
distinct from the `Result::Err` channel.
-/

/-- Truncation of a signed 64-bit intermediate value to `u32`, modelling
Rust's `as u32` cast. `Int.emod` with a positive modulus is non-negative,
so `toNat` is faithful. -/
def toU32 (i : Int) : Nat := (i % (4294967296 : Int)).toNat

/-- The two architecture variants supported by `probe_rs_target::Architecture`. -/
inductive Arch
| arm
| riscv
deriving DecidableEq

/-- Model of `probe_rs::debug::ColumnType` (and of gimli's `ColumnType`,
which it mirrors): either the left edge of a line or a 1-based column. -/
inductive ColumnType
| leftEdge
| column (c : Nat)
deriving DecidableEq

/-- Model of `probe_rs::debug::SourceLocation`. Paths are strings. -/
structure SourceLocation where
  line : Option Nat
  column : Option ColumnType
  file : Option String
  directory : Option String
deriving DecidableEq

/-- Model of `probe_rs::debug::Registers`: the architecture tag and the
sparse `HashMap<u32, u32>` of register values, as a function from register
numbers to optional values (absence = unknown/unreadable).  The static
`RegisterFile` reference is carried separately in the unwind environment. -/
structure Registers where
  arch : Arch
  values : Nat → Option Nat

namespace Registers

/-- `Registers::get_value_by_dwarf_register_number`. -/
def getByNumber (r : Registers) (n : Nat) : Option Nat := r.values n

/-- `Registers::set_by_dwarf_register_number`: `Some` inserts, `None` removes. -/
def setByNumber (r : Registers) (n : Nat) (v : Option Nat) : Registers :=
  { r with values := fun m => if m = n then v else r.values m }

/-- `Registers::get_frame_pointer`: ARM register 7, RISC-V register 8. -/
def getFramePointer (r : Registers) : Option Nat :=
  match r.arch with
  | .arm => r.values 7
  | .riscv => r.values 8

/-- `Registers::set_frame_pointer`. -/
def setFramePointer (r : Registers) (v : Option Nat) : Registers :=
  match r.arch with
  | .arm => r.setByNumber 7 v
  | .riscv => r.setByNumber 8 v

/-- `Registers::get_program_counter`: ARM register 15, RISC-V register 1
(the source notes itself that RISC-V's PC is not really r1). -/
def getProgramCounter (r : Registers) : Option Nat :=
  match r.arch with
  | .arm => r.values 15
  | .riscv => r.values 1

/-- `Registers::set_program_counter`. -/
def setProgramCounter (r : Registers) (v : Option Nat) : Registers :=
  match r.arch with
  | .arm => r.setByNumber 15 v
  | .riscv => r.setByNumber 1 v

/-- `Registers::get_stack_pointer`: ARM register 13, RISC-V register 2. -/
def getStackPointer (r : Registers) : Option Nat :=
  match r.arch with
  | .arm => r.values 13
  | .riscv => r.values 2

/-- `Registers::set_stack_pointer`. -/
def setStackPointer (r : Registers) (v : Option Nat) : Registers :=
  match r.arch with
  | .arm => r.setByNumber 13 v
  | .riscv => r.setByNumber 2 v

/-- `Registers::get_return_address`: ARM register 14, RISC-V register 1. -/
def getReturnAddress (r : Registers) : Option Nat :=
  match r.arch with
  | .arm => r.values 14
  | .riscv => r.values 1

/-- `Registers::set_return_address`. -/
def setReturnAddress (r : Registers) (v : Option Nat) : Registers :=
  match r.arch with
  | .arm => r.setByNumber 14 v
  | .riscv => r.setByNumber 1 v

end Registers

/-!
The `DW_TAG_base_type` arm of `UnitInfo::extract_type` (claim C8).

Source, `extract_type`, array-element members:
```
let (location, has_overflowed) = parent_variable.memory_location
    .overflowing_add(child_member_index as u64 * child_variable.byte_size);
if has_overflowed { return Err(...) } else { child_variable.memory_location = location; }
```
`member_index as u64 * byte_size` is a `u64` multiplication; in a release
build it wraps silently (modelled as `% 2^64`), and only the subsequent
addition is overflow-checked via `overflowing_add`.
-/

/-- Result of the base-type memory-location computation: the new
`memory_location` on success, or the error message of the `Err` branch. -/
def extract_type_base_member (parentLocation : Nat) (memberIndex : Option Nat)
    (byteSize : Nat) : Except String Nat :=
  match memberIndex with
  | none => .ok parentLocation
  | some mi =>
    let product := (mi * byteSize) % 18446744073709551616
    if 18446744073709551616 ≤ parentLocation + product then
      .error "Overflow calculating variable address"
    else
      .ok (parentLocation + product)

/-- Boolean success projection for `Except String Nat`. -/
def exceptOk : Except String Nat → Bool
  | .ok _ => true
  | .error _ => false

/-!
The `RequiresMemory` arm of `UnitInfo::expr_to_piece` (claim C3).

Source:
```
RequiresMemory { address, size, .. } => {
    let mut buff = vec![0u8; size as usize];
    core.read(address as u32, &mut buff).map_err(...)?;
    match size {
        1 => ... Value::U8(buff[0]),
        2 => { let val = (u16::from(buff[0]) << 8) | (u16::from(buff[1]) as u16); ... }
        4 => { let val = (u32::from(buff[0]) << 24) | ... | u32::from(buff[3]); ... }
        x => todo!(...),
    }
}
```
Memory is a partial byte map (values are bytes, `< 256`); `core.read`
fails if any requested byte is unavailable.  Note that `buff[0]` — the byte
at the lowest address — is placed in the MOST significant position for
sizes 2 and 4, i.e. the buffer is assembled big-endian.
-/

/-- Read `n` consecutive bytes starting at `a`, failing if any is absent
(models the all-or-nothing `core.read` into a `size`-byte buffer). -/
def readBytes (mem : Nat → Option Nat) : Nat → Nat → Option (List Nat)
  | _, 0 => some []
  | a, n + 1 =>
    match mem a with
    | none => none
    | some b => (readBytes mem (a + 1) n).map (fun rest => b :: rest)

/-- Outcome of supplying one memory request during expression evaluation:
the value handed to `resume_with_memory`, the `Err` of a failed read, or a
panic (`todo!`) for an unsupported size. -/
inductive PieceMemoryOut
| ok (v : Nat)
| err
| panicked
deriving DecidableEq

/-- The value supplied for a `RequiresMemory` suspension, following the
source arm byte for byte (including the big-endian assembly). -/
def expr_to_piece_memory (mem : Nat → Option Nat) (address size : Nat) : PieceMemoryOut :=
  match readBytes mem (address % 4294967296) size with
  | none => .err
  | some buff =>
    match size, buff with
    | 1, [b0] => .ok b0
    | 2, [b0, b1] => .ok ((b0 <<< 8) ||| b1)
    | 4, [b0, b1, b2, b3] => .ok ((b0 <<< 24) ||| (b1 <<< 16) ||| (b2 <<< 8) ||| b3)
    | _, _ => .panicked

/-- The little-endian interpretation of a byte list (lowest address =
least significant byte), as the spec demands and as `DebugInfo::unwind`
itself does via `u32::from_le_bytes`. -/
def leValue : List Nat → Nat
  | [] => 0
  | b :: rest => b + 256 * leValue rest

/-- C9: for a `Registers` value tagged `Riscv`, the program-counter and
return-address accessors read and write the same register number (1), so
setting one role makes the other role observe the same value. -/
theorem claim_C9 (r : Registers) (v : Nat) (h : r.arch = .riscv) :
    (r.setProgramCounter (some v)).getReturnAddress = some v ∧
      (r.setReturnAddress (some v)).getProgramCounter = some v := by
  simp [Registers.setProgramCounter, Registers.setReturnAddress,
    Registers.getReturnAddress, Registers.getProgramCounter, Registers.setByNumber, h]

/-- Witness for C9 at a concrete RISC-V register snapshot. -/
theorem claim_C9_witness :
    (Registers.mk .riscv (fun _ => none) |>.setProgramCounter (some 77)).getReturnAddress
        = some 77 ∧
      (Registers.mk .riscv (fun _ => none) |>.setReturnAddress (some 77)).getProgramCounter
        = some 77 :=
  claim_C9 (Registers.mk .riscv (fun _ => none)) 77 rfl

/-- C8 counterexample: the claim says `extract_type` fails exactly when
`parent + member_index * byte_size` overflows the 64-bit address space.
At `parent = 0`, `member_index = 2^32`, `byte_size = 2^32` the exact sum
`2^64` does overflow, yet the code succeeds with location 0, because the
`u64` product wraps to 0 before the overflow-checked addition runs. -/
theorem claim_C8_counterexample :
    extract_type_base_member 0 (some 4294967296) 4294967296 = .ok 0 ∧
      18446744073709551616 ≤ 0 + 4294967296 * 4294967296 := by
  constructor
  · rfl
  · norm_num

/-- C8 (amended): for an array-element member the computed memory location
equals `(parent + member_index * byte_size) mod 2^64`, and the operation
fails with an error exactly when the overflow-checked addition of the
(already wrapped, mod `2^64`) product to the parent's base address leaves
the 64-bit address space. -/
theorem claim_C8_amended (p mi bs : Nat) (hp : p < 18446744073709551616) :
    (∀ l, extract_type_base_member p (some mi) bs = .ok l →
        l = (p + mi * bs) % 18446744073709551616) ∧
      (exceptOk (extract_type_base_member p (some mi) bs) = false ↔
        18446744073709551616 ≤ p + (mi * bs) % 18446744073709551616) := by
  constructor
  · intro l hl
    dsimp only [extract_type_base_member] at hl
    by_cases h : 18446744073709551616 ≤ p + (mi * bs) % 18446744073709551616
    · rw [if_pos h] at hl
      exact absurd hl (by simp)
    · rw [if_neg h] at hl
      injection hl with hl
      omega
  · by_cases h : 18446744073709551616 ≤ p + (mi * bs) % 18446744073709551616
    · simp [extract_type_base_member, exceptOk, h]
    · simp [extract_type_base_member, exceptOk, h]

/-- Witness for C8 (amended) at `p = 8`, `mi = 3`, `bs = 4`. -/
theorem claim_C8_amended_witness :
    (∀ l, extract_type_base_member 8 (some 3) 4 = .ok l →
        l = (8 + 3 * 4) % 18446744073709551616) ∧
      (exceptOk (extract_type_base_member 8 (some 3) 4) = false ↔
        18446744073709551616 ≤ 8 + (3 * 4) % 18446744073709551616) :=
  claim_C8_amended 8 3 4 (by norm_num)

/-- C3 (code bug): at the failing input — a 2-byte read of the bytes
`0x34` (at the requested address) and `0x12` (at the next address) — the
code supplies `0x3412`: it places the byte at the lowest address in the
most significant position (big-endian assembly).  The little-endian value
of the same buffer, which the spec requires and which `DebugInfo::unwind`
itself computes with `u32::from_le_bytes`, is `0x1234`. -/
theorem claim_C3_bug :
    expr_to_piece_memory (fun a => if a = 16 then some 52 else if a = 17 then some 18 else none)
        16 2 = .ok 13330 ∧
      leValue [52, 18] = 4660 ∧ (13330 : Nat) ≠ 4660 := by
  refine ⟨rfl, rfl, by norm_num⟩

/-!
Model of `DebugInfo::unwind` (claims C1, C2, C4, C5, C10).

The gimli/probe collaborators are abstracted as an `UnwindEnv`:
  * `registerFile` models the static `RegisterFile` (platform register
    count and role-to-number map used by `register_description`),
  * `initRegisters` is the snapshot produced by `Registers::from_core`,
  * `frameInfo` models `DebugInfo::get_stackframe_info`, which in the
    source always returns `Ok` (every internal failure there is degraded
    to a placeholder), so it is total; the fields it determines are the
    resolved function name, source location and inline-call-site data,
    while `unwind` itself fixes the frame's `pc` (`address as u32`) and
    register snapshot,
  * `fde` models `DebugFrame::fde_for_address` (`none` = lookup error),
    and the found descriptor carries the CIE's `address_size` and
    `return_address_register` together with the optional result of
    `unwind_info_for_address` (`none` = error),
  * `read4` models a 4-byte `core.read` at a `u32` address followed by
    `u32::from_le_bytes` (`none` = read error).

The `StackFrame` model keeps the fields the claims observe; the
process-unique `id` and the three per-frame `VariableCache`s of the source
are orthogonal to every claim and are not carried.
-/

/-- Role-to-register-number map of the platform's `RegisterFile`. -/
structure RegisterFile where
  numPlatformRegisters : Nat
  framePointerNum : Nat
  stackPointerNum : Nat
  returnAddressNum : Nat
  programCounterNum : Nat

/-- A per-register CFI rule (`gimli::read::RegisterRule`); every variant
other than `Undefined`, `SameValue` and `Offset` hits `unimplemented!()`
in the source and is collapsed into `unsupported`. -/
inductive RegisterRule
| undefined
| sameValue
| offset (o : Int)
| unsupported

/-- A CFA rule (`gimli::CfaRule`); the `Expression` variant hits
`unimplemented!()` in the source. -/
inductive CfaRule
| registerAndOffset (reg : Nat) (offset : Int)
| expression

/-- One CFI table row (`gimli::UnwindTableRow`): the CFA rule plus a rule
for every register number. -/
structure UnwindInfo where
  cfa : CfaRule
  registerRule : Nat → RegisterRule

/-- A frame descriptor (`gimli::FrameDescriptionEntry` plus its CIE data
and the result of `unwind_info_for_address` at the looked-up address). -/
structure FrameDescriptor where
  addressSize : Nat
  returnAddressRegister : Nat
  unwindInfo : Option UnwindInfo

/-- The data `get_stackframe_info` resolves for a frame, besides the `pc`
and register snapshot that `unwind` itself supplies. -/
structure FrameMeta where
  functionName : String
  sourceLocation : Option SourceLocation
  inlinedCallSite : Option Nat
  inlinedCallerSourceLocation : Option SourceLocation

/-- Model of `probe_rs::debug::StackFrame` (claim-relevant fields). -/
structure StackFrame where
  functionName : String
  sourceLocation : Option SourceLocation
  registers : Registers
  pc : Nat
  inlinedCallSite : Option Nat
  inlinedCallerSourceLocation : Option SourceLocation

/-- Environment of external collaborators consumed by `unwind`. -/
structure UnwindEnv where
  registerFile : RegisterFile
  initRegisters : Registers
  frameInfo : Nat → Option SourceLocation → FrameMeta
  fde : Nat → Option FrameDescriptor
  read4 : Nat → Option Nat

/-- The `StackFrame` built by `get_stackframe_info` for address
`framePc`: `pc: address as u32`, registers cloned from the unwinding
snapshot, resolved fields from the environment. -/
def mkStackFrame (meta : FrameMeta) (framePc : Nat) (regs : Registers) : StackFrame :=
  { functionName := meta.functionName
    sourceLocation := meta.sourceLocation
    registers := regs
    pc := framePc % 4294967296
    inlinedCallSite := meta.inlinedCallSite
    inlinedCallerSourceLocation := meta.inlinedCallerSourceLocation }

/-- Outcome of the PART 2-d register loop: ran to completion, aborted
(`break 'unwind` on a failed memory read or absent CFA, after partially
updating the registers), or panicked on an unimplemented rule. -/
inductive RegFold
| done (regs : Registers)
| aborted (regs : Registers)
| panicked

/-- PART 2-d of `unwind`: update every platform register for the calling
frame from its CFI rule, reading `Undefined` fallbacks for the frame
pointer, stack pointer, return address and program counter.  `callee` is
the frozen `callee_frame_registers` clone; `regs` is the `unwind_registers`
value being updated in place (so the program-counter fallback reads the
return address as already rewritten earlier in the same pass). -/
def unwindRegisters (rf : RegisterFile) (read4 : Nat → Option Nat) (ui : UnwindInfo)
    (addressSize : Nat) (cfa : Option Nat) (callee : Registers) :
    List Nat → Registers → RegFold
  | [], regs => .done regs
  | rn :: rest, regs =>
    match ui.registerRule rn with
    | .undefined =>
      let v : Option Nat :=
        if rn = rf.framePointerNum then callee.getFramePointer
        else if rn = rf.stackPointerNum then cfa.map (fun c => c &&& 4294967292)
        else if rn = rf.returnAddressNum then callee.getReturnAddress
        else if rn = rf.programCounterNum then
          regs.getReturnAddress.bind (fun ra =>
            if ra = 4294967295 then none
            else if ra = 0 then some 0
            else some (toU32 ((ra : Int) - (addressSize : Int)) &&& 4294967294))
        else none
      unwindRegisters rf read4 ui addressSize cfa callee rest (regs.setByNumber rn v)
    | .sameValue =>
      unwindRegisters rf read4 ui addressSize cfa callee rest
        (regs.setByNumber rn (callee.getByNumber rn))
    | .offset o =>
      match cfa with
      | some c =>
        match read4 (toU32 ((c : Int) + o)) with
        | some v =>
          unwindRegisters rf read4 ui addressSize cfa callee rest
            (regs.setByNumber rn (some v))
        | none => .aborted regs
      | none => .aborted regs
    | .unsupported => .panicked

/-- Outcome of PART 3: registers updated for the next iteration, a
push-and-break, or a panic on an unimplemented rule. -/
inductive Part3Out
| cont (regs : Registers)
| halted
| panicked

/-- PART 3 of `unwind`: re-evaluate CFI at the new program counter and
override only the CIE's return-address register. -/
def unwindCallerReturn (env : UnwindEnv) (regs : Registers) : Part3Out :=
  match regs.getProgramCounter with
  | none => .halted
  | some prevPc =>
    match env.fde prevPc with
    | none => .halted
    | some pfde =>
      match pfde.unwindInfo with
      | none => .halted
      | some pui =>
        match pui.cfa with
        | .expression => .panicked
        | .registerAndOffset reg offset =>
          match regs.getByNumber reg with
          | none => .halted
          | some rv =>
            let previousCfa : Option Nat := some (toU32 ((rv : Int) + offset))
            let rrn := pfde.returnAddressRegister
            match pui.registerRule rrn with
            | .undefined => .cont (regs.setByNumber rrn none)
            | .sameValue => .cont (regs.setByNumber rrn (regs.getByNumber rrn))
            | .offset o =>
              match previousCfa with
              | some c =>
                match env.read4 (toU32 ((c : Int) + o)) with
                | some v => .cont (regs.setByNumber rrn (some v))
                | none => .halted
              | none => .halted
            | .unsupported => .panicked

/-- Outcome of one pass through the `'unwind` loop body: continue with
updated state, break (with the frame pushed by that exit path, if any, and
the register state at the break), or panic. -/
inductive IterOut
| next (frame : StackFrame) (regs : Registers) (src : Option SourceLocation)
| halt (pushed : Option StackFrame) (regs : Registers)
| panicked

/-- One iteration of the `'unwind: while` loop at program counter
`framePc` (PART 0 through PART 3 of the source). -/
def unwindIter (env : UnwindEnv) (regs : Registers) (src : Option SourceLocation)
    (framePc : Nat) : IterOut :=
  -- PART 0: no or zero return address ends the unwind without a frame.
  match regs.getReturnAddress with
  | none => .halt none regs
  | some lr =>
    if lr = 0 then .halt none regs
    else
      -- PART 1-a: `get_stackframe_info` (total in the source).
      let frame := mkStackFrame (env.frameInfo framePc src) framePc regs
      -- PART 1-b: the reset sentinel ends the unwind after this frame.
      if regs.getReturnAddress = some 4294967295 then
        .halt (some frame) (regs.setReturnAddress none)
      else
        -- PART 2-a: inlined frames only move the PC to the call site.
        match frame.inlinedCallSite with
        | some callSite =>
          .next frame (regs.setProgramCounter (some callSite))
            frame.inlinedCallerSourceLocation
        | none =>
          -- PART 2-b: frame descriptor and unwind info lookups.
          match env.fde framePc with
          | none => .halt (some frame) regs
          | some fde =>
            match fde.unwindInfo with
            | none => .halt (some frame) regs
            | some ui =>
              let callee := regs
              -- PART 2-c: the CFA for this row.
              match ui.cfa with
              | .expression => .panicked
              | .registerAndOffset reg offset =>
                match regs.getByNumber reg with
                | none => .halt (some frame) regs
                | some rv =>
                  let cfa : Option Nat := some (toU32 ((rv : Int) + offset))
                  -- PART 2-d: per-register unwind.
                  match unwindRegisters env.registerFile env.read4 ui fde.addressSize cfa
                      callee (List.range env.registerFile.numPlatformRegisters) regs with
                  | .panicked => .panicked
                  | .aborted regsA => .halt (some frame) regsA
                  | .done regsD =>
                    -- PART 3: fix up the return-address register.
                    match unwindCallerReturn env regsD with
                    | .panicked => .panicked
                    | .halted => .halt (some frame) regsD
                    | .cont regsN => .next frame regsN none

/-- Result of running the `'unwind` loop under a fuel bound. -/
inductive LoopOut
| ok (frames : List StackFrame) (regs : Registers)
| panicked
| fuelOut

/-- The `'unwind: while` loop: iterate while a program counter is
available, accumulating pushed frames. -/
def unwindLoop (env : UnwindEnv) : Nat → Registers → Option SourceLocation →
    List StackFrame → LoopOut
  | 0, _, _, _ => .fuelOut
  | fuel + 1, regs, src, acc =>
    match regs.getProgramCounter with
    | none => .ok acc regs
    | some framePc =>
      match unwindIter env regs src framePc with
      | .panicked => .panicked
      | .halt pushed regsF => .ok (acc ++ pushed.toList) regsF
      | .next frame regsN srcN => unwindLoop env fuel regsN srcN (acc ++ [frame])

/-- Result of `DebugInfo::unwind`: mirrors the Rust
`Result<Vec<StackFrame>, Error>` channel (`ok`/`err`) extended with the
two ways the Rust body can fail to return at all — a panic on an
`unimplemented!()` construct, or non-termination (fuel exhaustion). -/
inductive UnwindOutcome
| ok (frames : List StackFrame)
| err
| panicked
| fuelOut

/-- `DebugInfo::unwind`: seed the program counter from the requested
starting address when the live snapshot has none, then run the loop. -/
def unwind (env : UnwindEnv) (address : Nat) (fuel : Nat) : UnwindOutcome :=
  let regs0 :=
    if env.initRegisters.getProgramCounter.isNone then
      env.initRegisters.setProgramCounter (some (address % 4294967296))
    else env.initRegisters
  match unwindLoop env fuel regs0 none [] with
  | .ok frames _ => .ok frames
  | .panicked => .panicked
  | .fuelOut => .fuelOut

/-- The frames of a successful outcome. -/
def UnwindOutcome.frames? : UnwindOutcome → Option (List StackFrame)
  | .ok frames => some frames
  | _ => none

/-- Whether the outcome is the `Result::Err` channel. -/
def UnwindOutcome.isErrOutcome : UnwindOutcome → Bool
  | .err => true
  | _ => false

/-- The frames of a successful loop exit. -/
def LoopOut.frames? : LoopOut → Option (List StackFrame)
  | .ok frames _ => some frames
  | _ => none

/-- C10: `unwind` never returns through the `Result::Err` channel: every
exit of the loop body is a `break` that keeps the frames collected so far,
and the single return statement of the function is `Ok(stack_frames)`
(its only other behaviours are a panic on an `unimplemented!()` DWARF
construct, or failing to terminate). -/
theorem claim_C10 (env : UnwindEnv) (address fuel : Nat) :
    (unwind env address fuel).isErrOutcome = false := by
  have key : ∀ r : Registers,
      ((match unwindLoop env fuel r none [] with
        | .ok frames _ => UnwindOutcome.ok frames
        | .panicked => .panicked
        | .fuelOut => .fuelOut) : UnwindOutcome).isErrOutcome = false := by
    intro r
    cases unwindLoop env fuel r none [] <;> rfl
  exact key _

/-- C2: if at the start of a loop iteration the return address equals
`u32::MAX` (the reset sentinel), the iteration clears the return address,
appends exactly the frame built for the current program counter, and the
loop terminates successfully — so at most one more frame is appended after
the sentinel is observed. -/
theorem claim_C2 (env : UnwindEnv) (fuel : Nat) (regs : Registers)
    (src : Option SourceLocation) (acc : List StackFrame) (framePc : Nat)
    (hpc : regs.getProgramCounter = some framePc)
    (hra : regs.getReturnAddress = some 4294967295)
    (hfuel : 1 ≤ fuel) :
    unwindLoop env fuel regs src acc =
      .ok (acc ++ [mkStackFrame (env.frameInfo framePc src) framePc regs])
        (regs.setReturnAddress none) := by
  cases fuel with
  | zero => omega
  | succ n =>
    simp only [unwindLoop, hpc]
    unfold unwindIter
    rw [hra]
    simp

/-- Setting the program counter makes it readable back. -/
theorem Registers.getPC_setPC (r : Registers) (v : Option Nat) :
    (r.setProgramCounter v).getProgramCounter = v := by
  obtain ⟨a, vals⟩ := r
  cases a <;> simp [Registers.setProgramCounter, Registers.getProgramCounter,
    Registers.setByNumber]

/-- Setting the program counter changes the return address only on
RISC-V, where both roles share register 1. -/
theorem Registers.getRA_setPC (r : Registers) (v : Option Nat) :
    (r.setProgramCounter v).getReturnAddress =
      match r.arch with
      | .arm => r.getReturnAddress
      | .riscv => v := by
  obtain ⟨a, vals⟩ := r
  cases a <;> simp [Registers.setProgramCounter, Registers.getReturnAddress,
    Registers.setByNumber]

/-- Every successful loop exit extends the frames accumulated so far. -/
theorem unwindLoop_prefix (env : UnwindEnv) :
    ∀ (fuel : Nat) (regs : Registers) (src : Option SourceLocation)
      (acc frames : List StackFrame) (regsF : Registers),
      unwindLoop env fuel regs src acc = .ok frames regsF →
      ∃ rest, frames = acc ++ rest := by
  intro fuel
  induction fuel with
  | zero =>
    intro regs src acc frames regsF h
    simp [unwindLoop] at h
  | succ n ih =>
    intro regs src acc frames regsF h
    rw [unwindLoop] at h
    split at h
    · injection h with h1 _
      exact ⟨[], by rw [List.append_nil]; exact h1.symm⟩
    · split at h
      · exact absurd h (by simp)
      · injection h with h1 _
        exact ⟨_, h1.symm⟩
      · obtain ⟨rest, hrest⟩ := ih _ _ _ _ _ h
        exact ⟨_, by rw [hrest, List.append_assoc]⟩

/-- After PART 0 has passed (a present, non-zero return address), the only
outcomes of a loop iteration are a panic, a break that pushes exactly the
frame built for the current program counter, or a continue that appends
that same frame. -/
theorem unwindIter_frame (env : UnwindEnv) (regs : Registers)
    (src : Option SourceLocation) (framePc : Nat) (v : Nat)
    (hra : regs.getReturnAddress = some v) (hv : v ≠ 0) :
    unwindIter env regs src framePc = .panicked ∨
      (∃ regsF, unwindIter env regs src framePc =
        .halt (some (mkStackFrame (env.frameInfo framePc src) framePc regs)) regsF) ∨
      (∃ regsF srcF, unwindIter env regs src framePc =
        .next (mkStackFrame (env.frameInfo framePc src) framePc regs) regsF srcF) := by
  unfold unwindIter
  rw [hra]
  dsimp only
  rw [if_neg hv]
  by_cases hmax : (some v : Option Nat) = some 4294967295
  · rw [if_pos hmax]
    exact Or.inr (Or.inl ⟨regs.setReturnAddress none, rfl⟩)
  · rw [if_neg hmax]
    repeat' split
    all_goals first
      | exact Or.inl rfl
      | exact Or.inr (Or.inl ⟨_, rfl⟩)
      | exact Or.inr (Or.inr ⟨_, _, rfl⟩)

/-- C1 (amended): if the live register snapshot has no program-counter
value (so the requested starting address actually seeds the PC) and a
present, non-zero return address (PART 0 does not abort before any frame
is built; on RISC-V, where seeding the PC overwrites the shared PC/RA
register 1, the seeded address itself must be non-zero), then every
successful unwind returns at least one frame and frame 0's `pc` is the
requested starting address truncated to 32 bits. -/
theorem claim_C1_amended (env : UnwindEnv) (address fuel : Nat) (v : Nat)
    (hpc : env.initRegisters.getProgramCounter = none)
    (hra : env.initRegisters.getReturnAddress = some v)
    (hv : v ≠ 0)
    (hriscv : env.initRegisters.arch = .riscv → address % 4294967296 ≠ 0)
    (frames : List StackFrame)
    (hok : unwind env address fuel = .ok frames) :
    1 ≤ frames.length ∧
      frames.head?.map (fun f => f.pc) = some (address % 4294967296) := by
  simp only [unwind, hpc, Option.isNone_none, if_true] at hok
  set regs0 := env.initRegisters.setProgramCounter (some (address % 4294967296)) with hregs0
  have hpc0 : regs0.getProgramCounter = some (address % 4294967296) :=
    Registers.getPC_setPC _ _
  have hra0 : ∃ w, regs0.getReturnAddress = some w ∧ w ≠ 0 := by
    rw [hregs0]
    rw [Registers.getRA_setPC]
    cases harch : env.initRegisters.arch with
    | arm => exact ⟨v, hra, hv⟩
    | riscv => exact ⟨address % 4294967296, rfl, hriscv harch⟩
  obtain ⟨w, hw, hw0⟩ := hra0
  cases hL : unwindLoop env fuel regs0 none [] with
  | panicked => rw [hL] at hok; exact absurd hok (by simp)
  | fuelOut => rw [hL] at hok; exact absurd hok (by simp)
  | ok fs regsL =>
    rw [hL] at hok
    have hfs : frames = fs := by injection hok with h1; exact h1.symm
    subst hfs
    cases fuel with
    | zero => simp [unwindLoop] at hL
    | succ n =>
      rw [unwindLoop] at hL
      split at hL
      · rename_i hnone
        rw [hpc0] at hnone
        exact absurd hnone (by simp)
      · rename_i framePc hsome
        rw [hpc0] at hsome
        injection hsome with hsome
        rcases unwindIter_frame env regs0 none framePc w hw hw0 with hIt | ⟨regsF, hIt⟩ |
            ⟨regsF, srcF, hIt⟩
        · rw [hIt] at hL
          exact absurd hL (by simp)
        · rw [hIt] at hL
          injection hL with h1 _
          rw [← h1]
          refine ⟨by simp, ?_⟩
          simp [mkStackFrame, ← hsome, Nat.mod_mod_of_dvd _ (dvd_refl _)]
        · rw [hIt] at hL
          obtain ⟨rest, hrest⟩ := unwindLoop_prefix env n regsF srcF _ _ _ hL
          rw [hrest]
          refine ⟨by simp, ?_⟩
          simp [mkStackFrame, ← hsome, Nat.mod_mod_of_dvd _ (dvd_refl _)]

/-- The ARM `RegisterFile`: 16 platform registers, FP = r7, SP = r13,
LR = r14, PC = r15. -/
def armRegisterFile : RegisterFile :=
  { numPlatformRegisters := 16
    framePointerNum := 7
    stackPointerNum := 13
    returnAddressNum := 14
    programCounterNum := 15 }

/-- Environment refuting C1 as stated: the target is an ARM core whose
registers were all unreadable (an expected, supported state), so the
return address is absent. -/
def cexC1Env : UnwindEnv :=
  { registerFile := armRegisterFile
    initRegisters := ⟨.arm, fun _ => none⟩
    frameInfo := fun _ _ => ⟨"main", none, none, none⟩
    fde := fun _ => none
    read4 := fun _ => none }

/-- C1 counterexample: at the (perfectly valid) starting address `0x1000`,
with a snapshot whose return-address register is absent, `unwind` returns
an empty frame list — PART 0 breaks out of the loop before any frame is
built, so the output length is 0, not ≥ 1, and there is no frame 0 whose
`pc` could equal the starting address. -/
theorem claim_C1_counterexample :
    unwind cexC1Env 4096 2 = .ok [] ∧ ¬ 1 ≤ ([] : List StackFrame).length := by
  exact ⟨rfl, by simp⟩

/-- Environment witnessing C1 (amended): ARM core, no PC read, LR = 5. -/
def witC1Env : UnwindEnv :=
  { registerFile := armRegisterFile
    initRegisters := ⟨.arm, fun n => if n = 14 then some 5 else none⟩
    frameInfo := fun _ _ => ⟨"main", none, none, none⟩
    fde := fun _ => none
    read4 := fun _ => none }

/-- The frames computed by `unwind` in the C1 witness environment. -/
def witC1Frames : List StackFrame :=
  [mkStackFrame (witC1Env.frameInfo 64 none) 64
    (witC1Env.initRegisters.setProgramCounter (some (64 % 4294967296)))]

/-- Witness for C1 (amended) at starting address 64 with one fuel unit. -/
theorem claim_C1_witness :
    1 ≤ witC1Frames.length ∧
      witC1Frames.head?.map (fun f => f.pc) = some (64 % 4294967296) :=
  claim_C1_amended witC1Env 64 1 5 rfl rfl (by decide)
    (fun h => absurd h (by decide)) witC1Frames rfl

/-- C4: when an iteration of the unwind loop hits a failure that
invalidates the remaining unwind — the frame-descriptor lookup fails, the
CFA rule's register has no value, or a target-memory read while applying
an `Offset` register rule fails (the `aborted` outcome of the register
pass) — the loop appends the frame built for the current program counter
and returns successfully with all frames collected so far. -/
theorem claim_C4 (env : UnwindEnv) (fuel : Nat) (regs : Registers)
    (src : Option SourceLocation) (acc : List StackFrame) (framePc v : Nat)
    (hpc : regs.getProgramCounter = some framePc)
    (hra : regs.getReturnAddress = some v)
    (hv : v ≠ 0) (hmax : v ≠ 4294967295)
    (hinline : (env.frameInfo framePc src).inlinedCallSite = none)
    (hfail :
      env.fde framePc = none ∨
        (∃ fde ui reg offset, env.fde framePc = some fde ∧ fde.unwindInfo = some ui ∧
          ui.cfa = .registerAndOffset reg offset ∧ regs.getByNumber reg = none) ∨
        (∃ fde ui reg offset rv regsA, env.fde framePc = some fde ∧
          fde.unwindInfo = some ui ∧ ui.cfa = .registerAndOffset reg offset ∧
          regs.getByNumber reg = some rv ∧
          unwindRegisters env.registerFile env.read4 ui fde.addressSize
            (some (toU32 ((rv : Int) + offset))) regs
            (List.range env.registerFile.numPlatformRegisters) regs = .aborted regsA))
    (hfuel : 1 ≤ fuel) :
    (unwindLoop env fuel regs src acc).frames? =
      some (acc ++ [mkStackFrame (env.frameInfo framePc src) framePc regs]) := by
  have hsent : (some v : Option Nat) ≠ some 4294967295 := by simpa using hmax
  have hframe : (mkStackFrame (env.frameInfo framePc src) framePc regs).inlinedCallSite
      = none := hinline
  cases fuel with
  | zero => omega
  | succ n =>
    rw [unwindLoop, hpc]
    dsimp only
    rcases hfail with hfde | ⟨fde, ui, reg, offset, hfde, hui, hcfa, hreg⟩ |
        ⟨fde, ui, reg, offset, rv, regsA, hfde, hui, hcfa, hreg, hfold⟩
    · have hI : unwindIter env regs src framePc =
          .halt (some (mkStackFrame (env.frameInfo framePc src) framePc regs)) regs := by
        unfold unwindIter
        rw [hra]
        dsimp only
        rw [if_neg hv, if_neg hsent, hframe]
        dsimp only
        rw [hfde]
      rw [hI]
      simp [LoopOut.frames?]
    · have hI : unwindIter env regs src framePc =
          .halt (some (mkStackFrame (env.frameInfo framePc src) framePc regs)) regs := by
        unfold unwindIter
        rw [hra]
        dsimp only
        rw [if_neg hv, if_neg hsent, hframe]
        dsimp only
        rw [hfde]
        dsimp only
        rw [hui]
        dsimp only
        rw [hcfa]
        dsimp only
        rw [hreg]
      rw [hI]
      simp [LoopOut.frames?]
    · have hI : unwindIter env regs src framePc =
          .halt (some (mkStackFrame (env.frameInfo framePc src) framePc regs)) regsA := by
        unfold unwindIter
        rw [hra]
        dsimp only
        rw [if_neg hv, if_neg hsent, hframe]
        dsimp only
        rw [hfde]
        dsimp only
        rw [hui]
        dsimp only
        rw [hcfa]
        dsimp only
        rw [hreg]
        dsimp only
        rw [hfold]
      rw [hI]
      simp [LoopOut.frames?]

/-- Environment witnessing C4: the frame-descriptor lookup fails at the
current program counter. -/
def witC4Env : UnwindEnv :=
  { registerFile := armRegisterFile
    initRegisters := ⟨.arm, fun _ => none⟩
    frameInfo := fun _ _ => ⟨"f", none, none, none⟩
    fde := fun _ => none
    read4 := fun _ => none }

/-- Register snapshot for the C4 witness: PC = 100, LR = 5. -/
def witC4Regs : Registers :=
  ⟨.arm, fun n => if n = 15 then some 100 else if n = 14 then some 5 else none⟩

/-- Witness for C4: the failing lookup still yields exactly the frame for
the current program counter. -/
theorem claim_C4_witness :
    (unwindLoop witC4Env 3 witC4Regs none []).frames? =
      some ([] ++ [mkStackFrame (witC4Env.frameInfo 100 none) 100 witC4Regs]) :=
  claim_C4 witC4Env 3 witC4Regs none [] 100 5 rfl rfl (by decide) (by decide) rfl
    (Or.inl rfl) (by norm_num)

/-- The registers carried by a completed register pass. -/
def RegFold.doneRegs? : RegFold → Option Registers
  | .done regs => some regs
  | _ => none

/-- CFI row refuting C5 as stated: the return-address register (r14) has
an `Offset 0` rule, every other register is `Undefined`, and the CFA is
`r13 + 0`. -/
def cexC5UI : UnwindInfo :=
  { cfa := .registerAndOffset 13 0
    registerRule := fun rn => if rn = 14 then .offset 0 else .undefined }

/-- Callee registers refuting C5 as stated: SP = 0x1000, LR = 0x3000,
PC = 0x500. -/
def cexC5Callee : Registers :=
  ⟨.arm, fun n =>
    if n = 13 then some 4096 else if n = 14 then some 12288
    else if n = 15 then some 1280 else none⟩

/-- Target memory refuting C5 as stated: the stack slot at the CFA holds
the caller's return address 0x2000. -/
def cexC5Read (a : Nat) : Option Nat := if a = 4096 then some 8192 else none

/-- C5 counterexample: with the return-address register unwound by an
`Offset` rule (to 0x2000) before the program counter's `Undefined`
fallback runs, the fallback computes the new PC from the ALREADY-UPDATED
return address — `(0x2000 - 4) & !1 = 0x1ffc` — not from the callee-frozen
return address 0x3000, which would give `(0x3000 - 4) & !1 = 0x2ffc`.  The
claim's statement that the program counter's fallback uses the
callee-frozen value is therefore false at this input. -/
theorem claim_C5_counterexample :
    (unwindRegisters armRegisterFile cexC5Read cexC5UI 4 (some 4096) cexC5Callee
        (List.range 16) cexC5Callee).doneRegs?.map
          (fun regsF => regsF.getProgramCounter) = some (some 8188) ∧
      (8188 : Nat) ≠ 12284 := by
  exact ⟨by decide, by norm_num⟩

/-- C5 (amended): on an ARM register file, when every register's CFI rule
is `Undefined`, the register pass applies the architecture fallbacks: the
frame pointer inherits the callee's own frame pointer, the stack pointer
becomes the CFA with its two low alignment bits cleared, the return
address inherits the callee's return address, and the program counter is
derived from the return-address value as updated earlier in the same pass
(equal to the callee's here, since the return-address rule is also
`Undefined`): cleared for the reset sentinel `u32::MAX`, zero for zero,
otherwise reduced by the CIE address size and masked to clear the low
bit. -/
theorem claim_C5_amended (read4 : Nat → Option Nat) (ui : UnwindInfo)
    (addressSize : Nat) (c : Nat) (callee : Registers)
    (harch : callee.arch = .arm)
    (hu : ∀ rn, rn < 16 → ui.registerRule rn = .undefined) :
    (unwindRegisters armRegisterFile read4 ui addressSize (some c) callee
        (List.range 16) callee).doneRegs?.map
          (fun regsF => (regsF.getFramePointer, regsF.getStackPointer,
            regsF.getReturnAddress, regsF.getProgramCounter)) =
      some (callee.getFramePointer, some (c &&& 4294967292),
        callee.getReturnAddress,
        callee.getReturnAddress.bind (fun ra =>
          if ra = 4294967295 then none
          else if ra = 0 then some 0
          else some (toU32 ((ra : Int) - (addressSize : Int)) &&& 4294967294))) := by
  have h16 : List.range 16 = [0, 1, 2, 3, 4, 5, 6, 7, 8, 9, 10, 11, 12, 13, 14, 15] := by
    rfl
  rw [h16]
  simp only [unwindRegisters, hu 0 (by norm_num), hu 1 (by norm_num), hu 2 (by norm_num),
    hu 3 (by norm_num), hu 4 (by norm_num), hu 5 (by norm_num), hu 6 (by norm_num),
    hu 7 (by norm_num), hu 8 (by norm_num), hu 9 (by norm_num), hu 10 (by norm_num),
    hu 11 (by norm_num), hu 12 (by norm_num), hu 13 (by norm_num), hu 14 (by norm_num),
    hu 15 (by norm_num), armRegisterFile]
  simp only [RegFold.doneRegs?, Option.map_some]
  simp only [Registers.setByNumber, Registers.getFramePointer, Registers.getStackPointer,
    Registers.getReturnAddress, Registers.getProgramCounter, harch]
  norm_num

/-- CFI row for the C5 witness: every rule `Undefined`, CFA = `r13 + 0`. -/
def witC5UI : UnwindInfo :=
  { cfa := .registerAndOffset 13 0
    registerRule := fun _ => .undefined }

/-- Callee registers for the C5 witness: FP = 99, LR = 0x3000. -/
def witC5Callee : Registers :=
  ⟨.arm, fun n => if n = 7 then some 99 else if n = 14 then some 12288 else none⟩

/-- Witness for C5 (amended) at CFA 4097 and address size 4. -/
theorem claim_C5_witness :
    (unwindRegisters armRegisterFile (fun _ => none) witC5UI 4 (some 4097) witC5Callee
        (List.range 16) witC5Callee).doneRegs?.map
          (fun regsF => (regsF.getFramePointer, regsF.getStackPointer,
            regsF.getReturnAddress, regsF.getProgramCounter)) =
      some (witC5Callee.getFramePointer, some (4097 &&& 4294967292),
        witC5Callee.getReturnAddress,
        witC5Callee.getReturnAddress.bind (fun ra =>
          if ra = 4294967295 then none
          else if ra = 0 then some 0
          else some (toU32 ((ra : Int) - ((4 : Nat) : Int)) &&& 4294967294))) :=
  claim_C5_amended (fun _ => none) witC5UI 4 4097 witC5Callee rfl (fun _ _ => rfl)

/-- Environment for the C2 witness. -/
def witC2Env : UnwindEnv :=
  { registerFile := armRegisterFile
    initRegisters := ⟨.arm, fun _ => none⟩
    frameInfo := fun _ _ => ⟨"reset handler", none, none, none⟩
    fde := fun _ => none
    read4 := fun _ => none }

/-- Register snapshot for the C2 witness: PC = 256, LR = the reset
sentinel `u32::MAX`. -/
def witC2Regs : Registers :=
  ⟨.arm, fun n => if n = 15 then some 256 else if n = 14 then some 4294967295 else none⟩

/-- Witness for C2 with the sentinel return address at PC 256. -/
theorem claim_C2_witness :
    unwindLoop witC2Env 2 witC2Regs none [] =
      .ok ([] ++ [mkStackFrame (witC2Env.frameInfo 256 none) 256 witC2Regs])
        (witC2Regs.setReturnAddress none) :=
  claim_C2 witC2Env 2 witC2Regs none [] 256 rfl rfl (by norm_num)

/-!
Model of `DebugInfo::get_source_location` and `DebugInfo::function_name`
(claim C6).

A compile unit is its `unit_ranges`, its optional line program (a list of
sequences of rows, as gimli's `sequences()` produces) and its function
DIEs in depth-first order.  A row carries the resolved output of
`find_file_and_directory` directly.
-/

/-- One row of a line-number program. -/
structure LineRow where
  address : Nat
  line : Option Nat
  column : ColumnType
  file : Option String
  directory : Option String
deriving DecidableEq

/-- One sequence of a line-number program (`seq.start <= addr < seq.end`). -/
structure LineSequence where
  start : Nat
  stop : Nat
  rows : List LineRow
deriving DecidableEq

/-- A `DW_TAG_inlined_subroutine` DIE: its ranges, whether its
`DW_AT_abstract_origin` is present as a unit reference, and its resolved
name (concrete entry falling back to the abstract origin). -/
structure InlinedDie where
  ranges : List (Nat × Nat)
  hasUnitRefOrigin : Bool
  name : Option String
deriving DecidableEq

/-- A `DW_TAG_subprogram` DIE: its ranges, resolved `DW_AT_name`, and the
inlined subroutines of its subtree in depth-first order. -/
structure FuncDie where
  ranges : List (Nat × Nat)
  name : Option String
  inlined : List InlinedDie
deriving DecidableEq

/-- A compile unit as consumed by the source-location queries. -/
structure CompUnit where
  ranges : List (Nat × Nat)
  lineSeqs : Option (List LineSequence)
  functions : List FuncDie
deriving DecidableEq

/-- `range.begin <= address && address < range.end`. -/
def inRange (address : Nat) (r : Nat × Nat) : Bool :=
  decide (r.1 ≤ address ∧ address < r.2)

/-- The `SourceLocation` built from a matching row. -/
def rowLocation (row : LineRow) : SourceLocation :=
  { line := row.line
    column := some row.column
    file := row.file
    directory := row.directory }

/-- The row scan of `get_source_location`: return the row at exactly the
address; at the first row beyond the address return the previous row if
one was seen; `none` = the rows ran out (fall through to the next range). -/
def scanRows (address : Nat) : List LineRow → Option LineRow → Option SourceLocation
  | [], _ => none
  | row :: rest, previous =>
    if row.address = address then some (rowLocation row)
    else if address < row.address then
      match previous with
      | some prev => some (rowLocation prev)
      | none => scanRows address rest (some row)
    else scanRows address rest (some row)

/-- Outcome of scanning one unit's ranges: an early `return` from
`get_source_location` with this result, or move to the next unit. -/
inductive UnitScan
| ret (result : Option SourceLocation)
| next

/-- The range loop of `get_source_location` for one unit: on a containing
range, a missing line program or a missing covering sequence returns
`none` for the whole query; a row scan that found something returns it;
otherwise the next range is tried. -/
def scanRanges (address : Nat) (lineSeqs : Option (List LineSequence)) :
    List (Nat × Nat) → UnitScan
  | [] => .next
  | r :: rest =>
    if inRange address r then
      match lineSeqs with
      | none => .ret none
      | some seqs =>
        match seqs.find? (fun s => decide (s.start ≤ address ∧ address < s.stop)) with
        | none => .ret none
        | some seq =>
          match scanRows address seq.rows none with
          | some loc => .ret (some loc)
          | none => scanRanges address lineSeqs rest
    else scanRanges address lineSeqs rest

/-- `DebugInfo::get_source_location`: scan units in order. -/
def get_source_location (units : List CompUnit) (address : Nat) : Option SourceLocation :=
  match units with
  | [] => none
  | u :: rest =>
    match scanRanges address u.lineSeqs u.ranges with
    | .ret result => result
    | .next => get_source_location rest address

/-- `UnitInfo::find_inlined_function`: the first inlined subroutine whose
ranges contain the address decides the outcome — its resolved die when the
abstract origin is a unit reference, nothing otherwise. -/
def findInlinedFunction (address : Nat) (ins : List InlinedDie) : Option (Option String) :=
  match ins.find? (fun i => i.ranges.any (inRange address)) with
  | none => none
  | some i => if i.hasUnitRefOrigin then some i.name else none

/-- `UnitInfo::get_function_die`: the first subprogram whose ranges contain
the address, with optional inline refinement (falling back to the outer
die).  Outer `none` = no die found; the inner value is the die's name. -/
def get_function_die (u : CompUnit) (address : Nat) (findInlined : Bool) :
    Option (Option String) :=
  match u.functions.find? (fun f => f.ranges.any (inRange address)) with
  | none => none
  | some f =>
    if findInlined then
      match findInlinedFunction address f.inlined with
      | some nm => some nm
      | none => some f.name
    else some f.name

/-- `DebugInfo::function_name`: first unit whose die yields a name. -/
def function_name (units : List CompUnit) (address : Nat) (findInlined : Bool) :
    Option String :=
  match units with
  | [] => none
  | u :: rest =>
    match (get_function_die u address findInlined).bind id with
    | some nm => some nm
    | none => function_name rest address findInlined

/-- A unit none of whose ranges contain the address is skipped. -/
theorem scanRanges_next (address : Nat) (lineSeqs : Option (List LineSequence)) :
    ∀ rs : List (Nat × Nat), (∀ r ∈ rs, inRange address r = false) →
      scanRanges address lineSeqs rs = .next := by
  intro rs
  induction rs with
  | nil => intro _; rfl
  | cons r rest ih =>
    intro h
    rw [scanRanges.eq_def]
    dsimp only
    rw [if_neg (by simp [h r (by simp)])]
    exact ih (fun x hx => h x (by simp [hx]))

/-- The row scan finds an exact match once every earlier row lies strictly
below the address. -/
theorem scanRows_exact (address : Nat) (r : LineRow) (hr : r.address = address) :
    ∀ (rpre : List LineRow) (rpost : List LineRow) (previous : Option LineRow),
      (∀ p ∈ rpre, p.address < address) →
      scanRows address (rpre ++ r :: rpost) previous = some (rowLocation r) := by
  intro rpre
  induction rpre with
  | nil =>
    intro rpost previous _
    rw [List.nil_append, scanRows.eq_def]
    dsimp only
    rw [if_pos hr]
  | cons p rpre ih =>
    intro rpost previous h
    have hp := h p (by simp)
    rw [List.cons_append, scanRows.eq_def]
    dsimp only
    rw [if_neg (by omega), if_neg (by omega)]
    exact ih rpost (some p) (fun x hx => h x (by simp [hx]))

/-- The row scan returns the row standing immediately before the first row
beyond the address, once every earlier row lies strictly below it. -/
theorem scanRows_last (address : Nat) (r hrow : LineRow)
    (hr : r.address < address) (hh : address < hrow.address) :
    ∀ (rpre : List LineRow) (rpost : List LineRow) (previous : Option LineRow),
      (∀ p ∈ rpre, p.address < address) →
      scanRows address (rpre ++ r :: hrow :: rpost) previous = some (rowLocation r) := by
  intro rpre
  induction rpre with
  | nil =>
    intro rpost previous _
    rw [List.nil_append, scanRows.eq_def]
    dsimp only
    rw [if_neg (by omega), if_neg (by omega), scanRows.eq_def]
    dsimp only
    rw [if_neg (by omega), if_pos hh]
  | cons p rpre ih =>
    intro rpost previous h
    have hp := h p (by simp)
    rw [List.cons_append, scanRows.eq_def]
    dsimp only
    rw [if_neg (by omega), if_neg (by omega)]
    exact ih rpost (some p) (fun x hx => h x (by simp [hx]))

/-- On a unit having a containing range, with a line program, a covering
sequence, and a row scan that succeeds, the range loop returns that hit. -/
theorem scanRanges_ret (address : Nat) (seqs : List LineSequence) (seq : LineSequence)
    (loc : SourceLocation)
    (hfind : seqs.find? (fun s => decide (s.start ≤ address ∧ address < s.stop)) = some seq)
    (hscan : scanRows address seq.rows none = some loc) :
    ∀ rs : List (Nat × Nat), (∃ r ∈ rs, inRange address r = true) →
      scanRanges address (some seqs) rs = .ret (some loc) := by
  intro rs
  induction rs with
  | nil => rintro ⟨r, hr, _⟩; simp at hr
  | cons r rest ih =>
    rintro ⟨r', hr', hin⟩
    by_cases hr : inRange address r = true
    · rw [scanRanges.eq_def]
      dsimp only
      rw [if_pos hr, hfind]
      dsimp only
      rw [hscan]
    · rw [scanRanges.eq_def]
      dsimp only
      rw [if_neg hr]
      rcases List.mem_cons.mp hr' with h1 | h1
      · exact absurd (h1 ▸ hin) hr
      · exact ih ⟨r', h1, hin⟩

/-- Units with no containing range contribute nothing to the query. -/
theorem get_source_location_append (address : Nat) :
    ∀ (upre rest : List CompUnit),
      (∀ u ∈ upre, ∀ r ∈ u.ranges, inRange address r = false) →
      get_source_location (upre ++ rest) address = get_source_location rest address := by
  intro upre
  induction upre with
  | nil => intro rest _; rfl
  | cons u upre ih =>
    intro rest h
    rw [List.cons_append, get_source_location.eq_def]
    dsimp only
    rw [scanRanges_next address u.lineSeqs u.ranges (h u (by simp))]
    exact ih rest (fun x hx => h x (by simp [hx]))

/-- Splitting off the first element of a list satisfying a decidable
predicate, when one exists. -/
theorem exists_first_split {α : Type} (p : α → Prop) [DecidablePred p] :
    ∀ l : List α, (∃ x ∈ l, p x) →
      ∃ (pre : List α) (x : α) (post : List α),
        l = pre ++ x :: post ∧ p x ∧ ∀ y ∈ pre, ¬ p y := by
  intro l
  induction l with
  | nil => rintro ⟨x, hx, _⟩; simp at hx
  | cons a l ih =>
    rintro ⟨x, hx, hpx⟩
    by_cases hpa : p a
    · exact ⟨[], a, l, by simp, hpa, by simp⟩
    · have hxl : x ∈ l := by
        rcases List.mem_cons.mp hx with h1 | h1
        · exact absurd (h1 ▸ hpx) hpa
        · exact h1
      obtain ⟨pre, y, post, hsplit, hpy, hpre⟩ := ih ⟨x, hxl, hpx⟩
      exact ⟨a :: pre, y, post, by simp [hsplit], hpy, by
        intro z hz
        rcases List.mem_cons.mp hz with h1 | h1
        · exact h1 ▸ hpa
        · exact hpre z h1⟩

/-- If no function DIE of any unit has a range containing the address,
`function_name` finds nothing. -/
theorem function_name_none (address : Nat) :
    ∀ units : List CompUnit,
      (∀ u ∈ units, ∀ f ∈ u.functions, ∀ r ∈ f.ranges, inRange address r = false) →
      ∀ b, function_name units address b = none := by
  intro units
  induction units with
  | nil => intro _ b; rfl
  | cons u rest ih =>
    intro h b
    have hfind : u.functions.find? (fun f => f.ranges.any (inRange address)) = none := by
      rw [List.find?_eq_none]
      intro f hf
      simp only [Bool.not_eq_true, List.any_eq_false]
      intro r hr
      simp [h u (by simp) f hf r hr]
    rw [function_name.eq_def]
    dsimp only
    unfold get_function_die
    rw [hfind]
    dsimp only
    exact ih (fun x hx => h x (by simp [hx])) b

/-- C6: for an address outside every compile unit's ranges (and function
DIE ranges contained in their unit's ranges, as well-formed DWARF has
them), `get_source_location` and `function_name` both return `none`; and
for an address inside a unit's ranges, with a covering sequence whose
rows are sorted by address, start at or below the address, and reach
beyond it, `get_source_location` returns the row whose address exactly
equals the queried address, or failing that, the last row whose address
is at most the queried address (the row before the first row beyond it,
every candidate with address at most the query lying at or below it). -/
theorem claim_C6 (address : Nat) :
    (∀ units : List CompUnit,
      (∀ u ∈ units, ∀ r ∈ u.ranges, inRange address r = false) →
      (∀ u ∈ units, ∀ f ∈ u.functions, ∀ r ∈ f.ranges,
          inRange address r = true → ∃ ur ∈ u.ranges, inRange address ur = true) →
      get_source_location units address = none ∧
        ∀ b, function_name units address b = none) ∧
    (∀ (upre upost : List CompUnit) (u : CompUnit) (seqs : List LineSequence)
        (seq : LineSequence),
      (∀ u' ∈ upre, ∀ r ∈ u'.ranges, inRange address r = false) →
      (∃ r ∈ u.ranges, inRange address r = true) →
      u.lineSeqs = some seqs →
      seqs.find? (fun s => decide (s.start ≤ address ∧ address < s.stop)) = some seq →
      seq.rows.Pairwise (fun a b => a.address ≤ b.address) →
      (∃ r0 ∈ seq.rows.head?, r0.address ≤ address) →
      (∃ rh ∈ seq.rows, address < rh.address) →
      ((∃ r ∈ seq.rows, r.address = address) →
        ∃ r ∈ seq.rows, r.address = address ∧
          get_source_location (upre ++ u :: upost) address = some (rowLocation r)) ∧
      ((∀ r ∈ seq.rows, r.address ≠ address) →
        ∃ r ∈ seq.rows, r.address ≤ address ∧
          (∀ r' ∈ seq.rows, r'.address ≤ address → r'.address ≤ r.address) ∧
          get_source_location (upre ++ u :: upost) address = some (rowLocation r))) := by
  constructor
  · intro units hout hwf
    constructor
    · have h1 := get_source_location_append address units [] hout
      simpa using h1
    · intro b
      apply function_name_none
      intro u hu f hf r hr
      cases hb : inRange address r with
      | false => rfl
      | true =>
        obtain ⟨ur, hur, hin⟩ := hwf u hu f hf r hr hb
        rw [hout u hu ur hur] at hin
        exact absurd hin (by simp)
  · intro upre upost u seqs seq hpre hcont hseqs hfind hsorted hhead hhigh
    constructor
    · intro hex
      obtain ⟨rpre, r, rpost, hsplit, hra, hprenot⟩ :=
        exists_first_split (fun row => row.address = address) seq.rows hex
      have hlow : ∀ p ∈ rpre, p.address < address := by
        intro p hp
        have hle : p.address ≤ r.address := by
          have hpw := hsorted
          rw [hsplit, List.pairwise_append] at hpw
          exact hpw.2.2 p hp r (by simp)
        have hne := hprenot p hp
        omega
      have hscan := scanRows_exact address r hra rpre rpost none hlow
      rw [← hsplit] at hscan
      have hret := scanRanges_ret address seqs seq (rowLocation r) hfind hscan u.ranges hcont
      refine ⟨r, by rw [hsplit]; simp, hra, ?_⟩
      rw [get_source_location_append address upre (u :: upost) hpre,
        get_source_location.eq_def]
      dsimp only
      rw [hseqs, hret]
    · intro hnone
      obtain ⟨pre, hrow, post, hsplit, hhb, hprenot⟩ :=
        exists_first_split (fun row => address < row.address) seq.rows hhigh
      obtain ⟨r0, hr0mem, hr0⟩ := hhead
      have hprene : pre ≠ [] := by
        intro hnil
        rw [hnil, List.nil_append] at hsplit
        rw [hsplit] at hr0mem
        have heq : hrow = r0 := by simpa [Option.mem_def] using hr0mem
        rw [heq] at hhb
        omega
      obtain ⟨pre', r, hconcat⟩ := pre.eq_nil_or_concat.resolve_left hprene
      have hsplit2 : seq.rows = pre' ++ r :: hrow :: post := by
        rw [hsplit, hconcat]
        simp
      have hrmem : r ∈ seq.rows := by rw [hsplit2]; simp
      have hrlt : r.address < address := by
        have h1 := hprenot r (by rw [hconcat]; simp)
        have h2 := hnone r hrmem
        simp only at h1
        omega
      have hlow : ∀ p ∈ pre', p.address < address := by
        intro p hp
        have h1 := hprenot p (by rw [hconcat]; simp [hp])
        have h2 := hnone p (by rw [hsplit2]; simp [hp])
        simp only at h1
        omega
      have hscan := scanRows_last address r hrow hrlt hhb pre' post none hlow
      rw [← hsplit2] at hscan
      have hret := scanRanges_ret address seqs seq (rowLocation r) hfind hscan u.ranges hcont
      refine ⟨r, hrmem, by omega, ?_, ?_⟩
      · intro r' hr' hr'le
        rw [hsplit2] at hr' hsorted
        rw [List.pairwise_append] at hsorted
        rcases List.mem_append.mp hr' with h1 | h1
        · exact hsorted.2.2 r' h1 r (by simp)
        · rcases List.mem_cons.mp h1 with h2 | h2
          · rw [h2]
          · rcases List.mem_cons.mp h2 with h3 | h3
            · rw [h3] at hr'le; omega
            · have hs2 := hsorted.2.1
              rw [List.pairwise_cons] at hs2
              have hs3 := hs2.2
              rw [List.pairwise_cons] at hs3
              have := hs3.1 r' h3
              omega
      · rw [get_source_location_append address upre (u :: upost) hpre,
          get_source_location.eq_def]
        dsimp only
        rw [hseqs, hret]

/-- Rows for the C6 witness: a unit spanning `[0x100, 0x200)` with rows at
0x100 (line 10), 0x150 (line 12) and the end row at 0x200. -/
def witC6Rows : List LineRow :=
  [⟨256, some 10, .leftEdge, some "a.c", some "/src"⟩,
   ⟨336, some 12, .column 5, some "a.c", some "/src"⟩,
   ⟨512, none, .leftEdge, some "a.c", some "/src"⟩]

/-- The single line sequence of the C6 witness unit. -/
def witC6Seq : LineSequence := ⟨256, 512, witC6Rows⟩

/-- The C6 witness compile unit, with one function "main" covering its
whole range. -/
def witC6Unit : CompUnit :=
  { ranges := [(256, 512)]
    lineSeqs := some [witC6Seq]
    functions := [⟨[(256, 512)], some "main", []⟩] }

/-- Witness for C6: at 999 (outside the unit) both queries return `none`;
at 336 (inside, an exact row match) the query returns that row. -/
theorem claim_C6_witness :
    (get_source_location [witC6Unit] 999 = none ∧
      function_name [witC6Unit] 999 true = none) ∧
    ∃ r ∈ witC6Seq.rows, r.address = 336 ∧
      get_source_location ([] ++ witC6Unit :: []) 336 = some (rowLocation r) := by
  constructor
  · have h := (claim_C6 999).1 [witC6Unit] (by decide) (by decide)
    exact ⟨h.1, h.2 true⟩
  · exact ((claim_C6 336).2 [] [] witC6Unit [witC6Seq] witC6Seq (by simp)
      ⟨(256, 512), by simp [witC6Unit], by decide⟩ rfl (by decide) (by decide)
      ⟨⟨256, some 10, .leftEdge, some "a.c", some "/src"⟩, rfl, by decide⟩
      ⟨⟨512, none, .leftEdge, some "a.c", some "/src"⟩, by decide, by decide⟩).1
      (by decide)

/-!
Model of the candidate selection in `DebugInfo::get_breakpoint_location`
(claim C7).

The collection loop (over every unit's line rows whose resolved path and
line match the request) is abstracted as the input list of
`(address, column)` candidates; the model covers the `locations.len()`
match: the sort by `(column, address)` and the best-candidate walk.
-/

/-- The strict order of gimli's derived `Ord` on `ColumnType`:
`LeftEdge` sorts before every `Column`, columns sort by value. -/
def colLt : ColumnType → ColumnType → Bool
  | .leftEdge, .leftEdge => false
  | .leftEdge, .column _ => true
  | .column _, .leftEdge => false
  | .column a, .column b => decide (a < b)

/-- Numeric rank realising the `ColumnType` order. -/
def colRank : ColumnType → Nat
  | .leftEdge => 0
  | .column c => c + 1

/-- The column order agrees with the rank order. -/
theorem colLt_iff (x y : ColumnType) : colLt x y = true ↔ colRank x < colRank y := by
  cases x <;> cases y <;> simp [colLt, colRank]

/-- A failed column comparison is the reverse weak inequality of ranks. -/
theorem colLt_false_iff (x y : ColumnType) :
    colLt x y = false ↔ colRank y ≤ colRank x := by
  rw [← Bool.not_eq_true, colLt_iff]
  omega

/-- The rank is injective. -/
theorem colRank_inj (x y : ColumnType) : colRank x = colRank y ↔ x = y := by
  cases x <;> cases y <;> simp [colRank]

/-- The `sort_by` comparator of `get_breakpoint_location`: by column,
then by address. -/
def locBefore (x y : Nat × ColumnType) : Prop :=
  colLt x.2 y.2 = true ∨ (x.2 = y.2 ∧ x.1 ≤ y.1)

instance : DecidableRel locBefore := fun x y => by
  unfold locBefore
  infer_instance

instance : IsTotal (Nat × ColumnType) locBefore :=
  ⟨by
    intro a b
    simp only [locBefore, colLt_iff, ← colRank_inj]
    omega⟩

instance : IsTrans (Nat × ColumnType) locBefore :=
  ⟨by
    intro a b c hab hbc
    simp only [locBefore, colLt_iff, ← colRank_inj] at *
    omega⟩

/-- The best-candidate walk of `get_breakpoint_location`: along the sorted
tail, stop at the first candidate whose column exceeds the requested one,
otherwise move to any strictly larger column. -/
def bestLoc (searchCol : ColumnType) : Nat × ColumnType → List (Nat × ColumnType) →
    Nat × ColumnType
  | best, [] => best
  | best, l :: ls =>
    if colLt searchCol l.2 then best
    else bestLoc searchCol (if colLt best.2 l.2 then l else best) ls

/-- The selection of `get_breakpoint_location` among the collected
`(address, column)` candidates: none for no candidate, the single
candidate's address for one, otherwise sort by `(column, address)` and
pick — without a requested column, the first; with one, the result of the
best-candidate walk started at the first. -/
def get_breakpoint_location (locations : List (Nat × ColumnType))
    (column : Option Nat) : Option Nat :=
  match locations with
  | [] => none
  | [l] => some l.1
  | _ :: _ :: _ =>
    let sorted := locations.insertionSort locBefore
    match column with
    | some searchColumn =>
      let searchCol := if searchColumn = 0 then ColumnType.leftEdge
        else ColumnType.column searchColumn
      match sorted with
      | [] => none
      | b :: rest => some (bestLoc searchCol b rest).1
    | none => sorted.head?.map (fun l => l.1)

/-- Specification of the best-candidate walk on a sorted list whose head
does not exceed the requested column: the result is a candidate with the
greatest column not exceeding the requested one, and the earliest (hence,
sorted by address within a column, lowest-address) such candidate. -/
theorem bestLoc_spec (searchCol : ColumnType) :
    ∀ (rest : List (Nat × ColumnType)) (best : Nat × ColumnType),
      colLt searchCol best.2 = false →
      List.Pairwise locBefore (best :: rest) →
      bestLoc searchCol best rest ∈ best :: rest ∧
        colLt searchCol (bestLoc searchCol best rest).2 = false ∧
        ∀ other ∈ best :: rest, colLt searchCol other.2 = false →
          colLt other.2 (bestLoc searchCol best rest).2 = true ∨
            (other.2 = (bestLoc searchCol best rest).2 ∧
              (bestLoc searchCol best rest).1 ≤ other.1) := by
  intro rest
  induction rest with
  | nil =>
    intro best hb _
    refine ⟨by simp [bestLoc], by simp [bestLoc, hb], ?_⟩
    intro other ho _
    have : other = best := by simpa using ho
    rw [this]
    exact Or.inr ⟨rfl, le_refl _⟩
  | cons l ls ih =>
    intro best hb hpw
    rw [List.pairwise_cons] at hpw
    obtain ⟨h1, h2⟩ := hpw
    by_cases hex : colLt searchCol l.2 = true
    · have hval : bestLoc searchCol best (l :: ls) = best := by
        rw [bestLoc.eq_def]
        dsimp only
        rw [if_pos hex]
      rw [hval]
      refine ⟨by simp, hb, ?_⟩
      intro other ho hole
      rcases List.mem_cons.mp ho with hcase | hcase
      · exact hcase ▸ Or.inr ⟨rfl, le_refl _⟩
      · rcases List.mem_cons.mp hcase with hcase2 | hcase2
        · rw [hcase2] at hole
          rw [hole] at hex
          exact absurd hex (by simp)
        · exfalso
          have hlex := (colLt_iff _ _).mp hex
          have hlole := (colLt_false_iff _ _).mp hole
          have hlb := (List.pairwise_cons.mp h2).1 other hcase2
          rcases hlb with hlb | ⟨hlb, _⟩
          · have := (colLt_iff _ _).mp hlb
            omega
          · have := congrArg colRank hlb
            omega
    · have hex' : colLt searchCol l.2 = false := by simpa using hex
      have hval : bestLoc searchCol best (l :: ls) =
          bestLoc searchCol (if colLt best.2 l.2 then l else best) ls := by
        rw [bestLoc.eq_def]
        dsimp only
        rw [if_neg (by simp [hex'])]
      rw [hval]
      by_cases hbl : colLt best.2 l.2 = true
      · rw [if_pos hbl]
        obtain ⟨ihm, ihc, ihmax⟩ := ih l hex' h2
        refine ⟨List.mem_cons_of_mem _ ihm, ihc, ?_⟩
        intro other ho hole
        rcases List.mem_cons.mp ho with hcase | hcase
        · have hstep := ihmax l (by simp) hex'
          have hblr := (colLt_iff _ _).mp hbl
          left
          rw [hcase, colLt_iff]
          rcases hstep with hstep | ⟨hstep, _⟩
          · have := (colLt_iff _ _).mp hstep
            omega
          · have := congrArg colRank hstep
            omega
        · exact ihmax other hcase hole
      · rw [if_neg hbl]
        have hbl' : colLt best.2 l.2 = false := by simpa using hbl
        have hpw' : List.Pairwise locBefore (best :: ls) :=
          List.pairwise_cons.mpr
            ⟨fun x hx => h1 x (List.mem_cons_of_mem _ hx), (List.pairwise_cons.mp h2).2⟩
        obtain ⟨ihm, ihc, ihmax⟩ := ih best hb hpw'
        refine ⟨?_, ihc, ?_⟩
        · rcases List.mem_cons.mp ihm with hcase | hcase
          · rw [hcase]
            exact List.mem_cons_self _ _
          · exact List.mem_cons_of_mem _ (List.mem_cons_of_mem _ hcase)
        · intro other ho hole
          rcases List.mem_cons.mp ho with hcase | hcase
          · exact ihmax other (hcase ▸ List.mem_cons_self _ _) hole
          · rcases List.mem_cons.mp hcase with hcase2 | hcase2
            · have hblb := h1 l (by simp)
              have heq2 : best.2 = l.2 ∧ best.1 ≤ l.1 := by
                rcases hblb with hblb | hblb
                · rw [hblb] at hbl'
                  exact absurd hbl' (by simp)
                · exact hblb
              have hstep := ihmax best (List.mem_cons_self _ _) hb
              rcases hstep with hstep | ⟨hstep, hR⟩
              · left
                rw [hcase2, ← heq2.1]
                exact hstep
              · right
                rw [hcase2]
                exact ⟨heq2.1.symm.trans hstep, le_trans hR heq2.2⟩
            · exact ihmax other (List.mem_cons_of_mem _ hcase2) hole

/-- C7: when more than one `(address, column)` candidate matches and a
column is requested, and at least one candidate's column does not exceed
the requested column, the selection returns the address of a candidate
with the greatest column not exceeding the requested one, ties between
equal columns broken by the lowest address. -/
theorem claim_C7 (locations : List (Nat × ColumnType)) (searchColumn : Nat)
    (searchCol : ColumnType) (hlen : 2 ≤ locations.length)
    (hsc : searchCol = if searchColumn = 0 then ColumnType.leftEdge
      else ColumnType.column searchColumn)
    (hex : ∃ lc ∈ locations, colLt searchCol lc.2 = false) :
    ∃ lc ∈ locations, colLt searchCol lc.2 = false ∧
      get_breakpoint_location locations (some searchColumn) = some lc.1 ∧
      ∀ other ∈ locations, colLt searchCol other.2 = false →
        colLt other.2 lc.2 = true ∨ (other.2 = lc.2 ∧ lc.1 ≤ other.1) := by
  cases locations with
  | nil => simp at hlen
  | cons a rest0 =>
  cases rest0 with
  | nil => simp at hlen
  | cons b rest =>
  have hperm := List.perm_insertionSort locBefore (a :: b :: rest)
  have hsorted := List.sorted_insertionSort locBefore (a :: b :: rest)
  have hlen2 : (List.insertionSort locBefore (a :: b :: rest)).length =
      (a :: b :: rest).length := List.length_insertionSort _ _
  cases hs : List.insertionSort locBefore (a :: b :: rest) with
  | nil => rw [hs] at hlen2; simp at hlen2
  | cons hd tl =>
    rw [hs] at hperm hsorted
    obtain ⟨lc0, hlc0mem, hlc0⟩ := hex
    have hlc0mem2 : lc0 ∈ hd :: tl := hperm.mem_iff.mpr hlc0mem
    have hhd : colLt searchCol hd.2 = false := by
      rcases List.mem_cons.mp hlc0mem2 with hcase | hcase
      · rw [← hcase]
        exact hlc0
      · have hrel := (List.pairwise_cons.mp hsorted).1 lc0 hcase
        rw [colLt_false_iff] at hlc0 ⊢
        rcases hrel with h | ⟨h, _⟩
        · have := (colLt_iff _ _).mp h
          omega
        · have := congrArg colRank h
          omega
    obtain ⟨hm, hc, hmax⟩ := bestLoc_spec searchCol tl hd hhd hsorted
    refine ⟨bestLoc searchCol hd tl, hperm.mem_iff.mp hm, hc, ?_, ?_⟩
    · rw [get_breakpoint_location.eq_def]
      dsimp only
      rw [hs, ← hsc]
    · intro other ho hole
      exact hmax other (hperm.mem_iff.mpr ho) hole

/-- Candidates for the C7 witness: columns 8, 3 and 3 at addresses 40, 10
and 20 respectively, with requested column 5. -/
def witC7Locations : List (Nat × ColumnType) :=
  [(40, .column 8), (10, .column 3), (20, .column 3)]

/-- Witness for C7 at requested column 5 over three candidates. -/
theorem claim_C7_witness :
    ∃ lc ∈ witC7Locations, colLt (ColumnType.column 5) lc.2 = false ∧
      get_breakpoint_location witC7Locations (some 5) = some lc.1 ∧
      ∀ other ∈ witC7Locations, colLt (ColumnType.column 5) other.2 = false →
        colLt other.2 lc.2 = true ∨ (other.2 = lc.2 ∧ lc.1 ≤ other.1) :=
  claim_C7 witC7Locations 5 (ColumnType.column 5) (by decide) (by decide) (by decide)
